import Mathlib

/-!
Verification development for the image composition pipeline of the
Gemini Image Studio repository.  The definitions below are a shallow
embedding of the code in `src/components/ImageAnalyzer.tsx` and
`src/types.ts`: pure helper functions become Lean functions, the React
state handlers become explicit state-passing functions, canvas drawing
geometry becomes exact rational arithmetic, and the trigonometric
bounding-box / transform math becomes real arithmetic.
-/

namespace ImageAnalyzer

/-- Embedding of the helper `gcd` from `ImageAnalyzer.tsx` lines 37-39:
`return b === 0 ? a : gcd(b, a % b)`. -/
def gcd (a b : ℕ) : ℕ :=
  if h : b = 0 then a else gcd b (a % b)
termination_by b
decreasing_by exact Nat.mod_lt _ (Nat.pos_of_ne_zero h)

/-- Embedding of `analyzerAspectRatios` from `types.ts` line 11. -/
def analyzerAspectRatios : List String :=
  ["16:9", "3:2", "4:3", "1:1", "3:4", "2:3", "9:16"]

/-- Result of the auto aspect-ratio computation performed in the
`image.onload` handler of `handleFileChange` (lines 122-134): the raw
auto-detected ratio string and the simplified ratio (both as the pair
of integers and as the displayed string). -/
structure AutoRatioResult where
  autoAspectRatio : String
  simplifiedW : ℕ
  simplifiedH : ℕ
  simplifiedRatio : String
  deriving DecidableEq, Repr

/-- Error taxonomy used by the specification for the pipeline. -/
inductive CompositionError where
  | invalidDimensions
  | aspectRatioUnresolved
  | sourceDecodeFailed
  | renderSurfaceUnavailable
  deriving DecidableEq, Repr

/-- The auto-ratio computation of the `image.onload` handler in
`handleFileChange` (lines 122-134): `commonDivisor = gcd(w, h)`,
`autoAspectRatio = "w:h"`, `simplifiedRatio = "w/g:h/g"`. -/
def autoRatioResult (w h : ℕ) : AutoRatioResult :=
  let commonDivisor := gcd w h
  { autoAspectRatio := toString w ++ ":" ++ toString h
    simplifiedW := w / commonDivisor
    simplifiedH := h / commonDivisor
    simplifiedRatio :=
      toString (w / commonDivisor) ++ ":" ++ toString (h / commonDivisor) }

/-- The `onload` path of `handleFileChange` performs no dimension
validation and has no failure branch: it always produces a result.  The
`Except` wrapper records that no `CompositionError` is ever signalled on
this path. -/
def resolveAutoRatio (w h : ℕ) : Except CompositionError AutoRatioResult :=
  Except.ok (autoRatioResult w h)

/-- Embedding of line 241: choose the encoding MIME type — the source
file type when it is JPEG or PNG, else PNG. -/
def outputMimeType (fileType : String) : String :=
  if fileType = "image/jpeg" || fileType = "image/png" then fileType
  else "image/png"

/-- The payload `handleAnalyze` (lines 252-263) sends to the analysis
service: the declared MIME type is `selectedFile.type` verbatim, while
the data URL produced by `getProcessedImageAsDataUrl` is encoded with
`outputMimeType`. -/
structure AnalyzePayload where
  mimeType : String
  encodedAs : String
  deriving DecidableEq, Repr

/-- Embedding of the MIME-type aspects of `handleAnalyze`: it forwards
`selectedFile.type` as `mimeType` next to data encoded per line 241. -/
def analyzePayload (fileType : String) : AnalyzePayload :=
  { mimeType := fileType, encodedAs := outputMimeType fileType }

/-- Embedding of `String.prototype.trim`: drop whitespace from both
ends of the character list. -/
def trimChars (l : List Char) : List Char :=
  ((l.dropWhile Char.isWhitespace).reverse.dropWhile Char.isWhitespace).reverse

/-- Embedding of `newRatio.trim()` (line 81). -/
def trim (s : String) : String :=
  String.mk (trimChars s.data)

/-- Character-level test for a token of the regex class `[1-9]\d*`:
nonempty, first character in `1`-`9`, remaining characters digits. -/
def posIntToken : List Char → Bool
  | [] => false
  | c :: rest => decide ('1' ≤ c) && decide (c ≤ '9') && rest.all Char.isDigit

/-- Split a character list at its first colon, returning the parts
before and after it. -/
def splitAtColon : List Char → Option (List Char × List Char)
  | [] => none
  | c :: rest =>
      if c = ':' then some ([], rest)
      else (splitAtColon rest).map (fun p => (c :: p.1, p.2))

/-- Embedding of the test against `ratioRegex = /^[1-9]\d*:[1-9]\d*$/`
in `handleAddRatio` (line 82): the string matches exactly when it splits
at a colon into two `[1-9]\d*` tokens (a colon inside either token would
make `posIntToken` fail, so this is the whole-string regex match). -/
def ratioRegexAccepts (s : String) : Bool :=
  match splitAtColon s.data with
  | some (a, b) => posIntToken a && posIntToken b
  | none => false

/-- Order-preserving deduplication, the semantics of
`[...new Set(ratios)]` (first occurrence kept); `seen` carries the
elements already emitted. -/
def uniqueAux (seen : List String) : List String → List String
  | [] => []
  | x :: xs => if x ∈ seen then uniqueAux seen xs
               else x :: uniqueAux (x :: seen) xs

/-- Embedding of the deduplication performed by `saveCustomRatios`
(lines 74-78): `const uniqueRatios = [...new Set(ratios)]`. -/
def saveCustomRatios (ratios : List String) : List String :=
  uniqueAux [] ratios

/-- The component state touched by the custom-ratio handlers. -/
structure RatioState where
  customRatios : List String
  newRatio : String
  ratioInputError : Option String
  selectedAspectRatio : String
  deriving DecidableEq, Repr

/-- Embedding of `handleAddRatio` (lines 80-96): trim the input, test
the regex, reject duplicates against the built-in ratios, the custom
ratios and the literal `Auto`, otherwise store the extended
(deduplicated) list and clear the input and the error. -/
def handleAddRatio (st : RatioState) : RatioState :=
  let trimmedRatio := trim st.newRatio
  if ratioRegexAccepts trimmedRatio = false then
    { st with ratioInputError := some "Invalid format. Use W:H (e.g., 5:4)." }
  else if trimmedRatio ∈ analyzerAspectRatios ++ st.customRatios ++ ["Auto"] then
    { st with ratioInputError := some "This aspect ratio already exists." }
  else
    { st with customRatios := saveCustomRatios (st.customRatios ++ [trimmedRatio])
              newRatio := ""
              ratioInputError := none }

/-- Embedding of `handleRemoveRatio` (lines 98-104): filter the ratio
out, store via `saveCustomRatios`, and reset the selection to `Auto`
when the removed ratio was selected. -/
def handleRemoveRatio (ratioToRemove : String) (st : RatioState) : RatioState :=
  let updatedRatios := st.customRatios.filter (fun r => r ≠ ratioToRemove)
  { st with customRatios := saveCustomRatios updatedRatios
            selectedAspectRatio :=
              if st.selectedAspectRatio = ratioToRemove then "Auto"
              else st.selectedAspectRatio }

/-- The invariant maintained by the custom-ratio handlers: no
duplicates, no `Auto` token, no built-in analyzer ratio. -/
def RatioInvariant (l : List String) : Prop :=
  l.Nodup ∧ "Auto" ∉ l ∧ ∀ r ∈ analyzerAspectRatios, r ∉ l

instance : DecidablePred RatioInvariant := fun l => by
  unfold RatioInvariant; infer_instance

/-- The resize policy enum (`type ResizeMode = 'crop' | 'stretch'`). -/
inductive ResizeMode where
  | crop
  | stretch
  deriving DecidableEq, Repr

/-- An axis-aligned rectangle with exact rational coordinates, standing
for the source/destination rectangles of `drawImage`. -/
structure Rect where
  x : ℚ
  y : ℚ
  w : ℚ
  h : ℚ
  deriving DecidableEq, Repr

/-- The fixed output width constant of `getProcessedImageAsDataUrl`
(line 218): `const outputWidth = 1024`. -/
def outputWidth : ℚ := 1024

/-- Line 219: `outputHeight = outputWidth / targetAspectRatio`, kept in
exact arithmetic until buffer allocation. -/
def outputHeightRaw (targetAspectRatio : ℚ) : ℚ :=
  outputWidth / targetAspectRatio

/-- The pixel height of the allocated output canvas: assigning the
float `outputHeight` to `finalCanvas.height` truncates it to an integer
(toward zero; the value is positive, so this is the floor). -/
def bufferHeight (targetAspectRatio : ℚ) : ℕ :=
  (⌊outputHeightRaw targetAspectRatio⌋).toNat

/-- Embedding of the crop-branch source-region selection of
`getProcessedImageAsDataUrl` (lines 226-237), for an intermediate
buffer of size `iw × ih` and target aspect ratio `t`. -/
def cropSourceRect (iw ih t : ℚ) : Rect :=
  if iw / ih > t then
    { x := (iw - ih * t) / 2, y := 0, w := ih * t, h := ih }
  else if iw / ih < t then
    { x := 0, y := (ih - iw / t) / 2, w := iw, h := iw / t }
  else
    { x := 0, y := 0, w := iw, h := ih }

/-- The final `drawImage` call of `getProcessedImageAsDataUrl` (lines
223-239) as a (source rectangle, destination rectangle) pair: under
`stretch` the whole intermediate buffer is drawn onto the full output
rectangle; under `crop` the selected region is drawn onto the full
output rectangle. -/
def composeDraw (iw ih t : ℚ) (mode : ResizeMode) : Rect × Rect :=
  match mode with
  | ResizeMode.stretch =>
      ({ x := 0, y := 0, w := iw, h := ih },
       { x := 0, y := 0, w := outputWidth, h := outputHeightRaw t })
  | ResizeMode.crop =>
      (cropSourceRect iw ih t,
       { x := 0, y := 0, w := outputWidth, h := outputHeightRaw t })

/-- Degrees to radians, line 192: `angleRad = (rotation * Math.PI) / 180`. -/
noncomputable def toRad (angleDeg : ℝ) : ℝ :=
  angleDeg * Real.pi / 180

/-- Embedding of the rotated-bounding-box computation of
`getProcessedImageAsDataUrl` (lines 192-197):
`rotatedWidth = w·|cos θ| + h·|sin θ|`,
`rotatedHeight = w·|sin θ| + h·|cos θ|`. -/
noncomputable def rotatedBoundingBox (w h angleDeg : ℝ) : ℝ × ℝ :=
  let angleRad := toRad angleDeg
  let c := |Real.cos angleRad|
  let s := |Real.sin angleRad|
  (w * c + h * s, w * s + h * c)

/-- Translation of the plane, the effect of `ctx.translate(dx, dy)` on
a drawn point. -/
def translatePt (dx dy : ℝ) (p : ℝ × ℝ) : ℝ × ℝ :=
  (p.1 + dx, p.2 + dy)

/-- Rotation of the plane about the origin, the effect of
`ctx.rotate(θ)` on a drawn point. -/
noncomputable def rotatePt (θ : ℝ) (p : ℝ × ℝ) : ℝ × ℝ :=
  (p.1 * Real.cos θ - p.2 * Real.sin θ, p.1 * Real.sin θ + p.2 * Real.cos θ)

/-- Axis scaling, the effect of `ctx.scale(sx, sy)` on a drawn point;
`scalePt (-1) 1` is the horizontal mirror about the vertical axis. -/
def scalePt (sx sy : ℝ) (p : ℝ × ℝ) : ℝ × ℝ :=
  (sx * p.1, sy * p.2)

/-- One canvas 2D-context transform mutation. -/
inductive CanvasOp where
  | translate (dx dy : ℝ)
  | rotate (θ : ℝ)
  | scale (sx sy : ℝ)

/-- The point map of a single canvas op. -/
noncomputable def applyOp : CanvasOp → (ℝ × ℝ → ℝ × ℝ)
  | CanvasOp.translate dx dy => translatePt dx dy
  | CanvasOp.rotate θ => rotatePt θ
  | CanvasOp.scale sx sy => scalePt sx sy

/-- Canvas current-transform semantics: each successive op multiplies
the current transform on the right, so the op issued last is applied to
the drawn source point first. -/
noncomputable def ctm (ops : List CanvasOp) : ℝ × ℝ → ℝ × ℝ :=
  ops.foldl (fun f op => f ∘ applyOp op) id

/-- The transform-mutation sequence issued by
`getProcessedImageAsDataUrl` (lines 204-208):
`translate(rw/2, rh/2); rotate(angleRad); if (isMirrored) scale(-1, 1)`. -/
noncomputable def composeTransformOps (angleRad rw rh : ℝ) (isMirrored : Bool) :
    List CanvasOp :=
  [CanvasOp.translate (rw / 2) (rh / 2), CanvasOp.rotate angleRad] ++
    (if isMirrored then [CanvasOp.scale (-1) 1] else [])

/-- Where a source-local point `p` (coordinates relative to the image
center, as set up by the `drawImage(image, -w/2, -h/2)` call on line
209) lands on the intermediate canvas. -/
noncomputable def renderPoint (angleRad rw rh : ℝ) (isMirrored : Bool)
    (p : ℝ × ℝ) : ℝ × ℝ :=
  ctm (composeTransformOps angleRad rw rh isMirrored) p

/-! ### Helper lemmas -/

theorem gcd_eq_natGcd : ∀ b a : ℕ, gcd a b = Nat.gcd a b := by
  intro b
  induction b using Nat.strong_induction_on with
  | _ b ih =>
    intro a
    rw [gcd]
    by_cases h : b = 0
    · subst h; simp
    · rw [dif_neg h, ih (a % b) (Nat.mod_lt _ (Nat.pos_of_ne_zero h)) b,
        Nat.gcd_comm b (a % b), ← Nat.gcd_rec, Nat.gcd_comm b a]

theorem mem_uniqueAux (x : String) :
    ∀ (l seen : List String), x ∈ uniqueAux seen l ↔ (x ∈ l ∧ x ∉ seen) := by
  intro l
  induction l with
  | nil => intro seen; simp [uniqueAux]
  | cons y ys ih =>
    intro seen
    by_cases h : y ∈ seen
    · rw [uniqueAux, if_pos h, ih seen, List.mem_cons]
      constructor
      · rintro ⟨hmem, hns⟩; exact ⟨Or.inr hmem, hns⟩
      · rintro ⟨hmem | hmem, hns⟩
        · exact absurd (hmem ▸ h) hns
        · exact ⟨hmem, hns⟩
    · rw [uniqueAux, if_neg h, List.mem_cons, List.mem_cons, ih (y :: seen)]
      constructor
      · rintro (rfl | ⟨hmem, hns⟩)
        · exact ⟨Or.inl rfl, h⟩
        · exact ⟨Or.inr hmem, fun hs => hns (List.mem_cons_of_mem _ hs)⟩
      · rintro ⟨rfl | hmem, hns⟩
        · exact Or.inl rfl
        · by_cases hxy : x = y
          · exact Or.inl hxy
          · refine Or.inr ⟨hmem, fun hs => ?_⟩
            rcases List.mem_cons.mp hs with h1 | h1
            · exact hxy h1
            · exact hns h1

theorem nodup_uniqueAux : ∀ (l seen : List String), (uniqueAux seen l).Nodup := by
  intro l
  induction l with
  | nil => intro seen; simp [uniqueAux]
  | cons y ys ih =>
    intro seen
    by_cases h : y ∈ seen
    · rw [uniqueAux, if_pos h]; exact ih seen
    · rw [uniqueAux, if_neg h]
      refine List.Nodup.cons ?_ (ih (y :: seen))
      intro hy
      exact ((mem_uniqueAux y ys (y :: seen)).mp hy).2 (List.mem_cons_self y seen)

theorem mem_saveCustomRatios (x : String) (l : List String) :
    x ∈ saveCustomRatios l ↔ x ∈ l := by
  simpa [saveCustomRatios] using mem_uniqueAux x l []

theorem nodup_saveCustomRatios (l : List String) :
    (saveCustomRatios l).Nodup :=
  nodup_uniqueAux l []

theorem mem_allRatios (t : String) (l : List String) :
    t ∈ analyzerAspectRatios ++ l ++ ["Auto"] ↔
      (t ∈ analyzerAspectRatios ∨ t ∈ l ∨ t = "Auto") := by
  simp [List.mem_append, or_assoc]

/-! ### Claim theorems -/

/-- C5: for all positive integers `w, h`, the auto-ratio resolution
computes `g = gcd w h` by the Euclidean algorithm (agreeing with
`Nat.gcd`), returns the simplified pair `(w/g, h/g)` together with the
raw ratio string `"w:h"` and the simplified ratio string, the simplified
pair cross-multiplies exactly (`w * simplifiedH = h * simplifiedW`), and
the simplified pair is coprime. -/
theorem resolve_auto_ratio_simplification (w h : ℕ) (hw : 0 < w) (hh : 0 < h) :
    ∃ r, resolveAutoRatio w h = Except.ok r ∧
      r.autoAspectRatio = toString w ++ ":" ++ toString h ∧
      r.simplifiedW = w / gcd w h ∧
      r.simplifiedH = h / gcd w h ∧
      r.simplifiedRatio = toString r.simplifiedW ++ ":" ++ toString r.simplifiedH ∧
      gcd w h = Nat.gcd w h ∧
      w * r.simplifiedH = h * r.simplifiedW ∧
      Nat.gcd r.simplifiedW r.simplifiedH = 1 := by
  refine ⟨autoRatioResult w h, rfl, rfl, rfl, rfl, rfl, gcd_eq_natGcd h w, ?_, ?_⟩
  · show w * (h / gcd w h) = h * (w / gcd w h)
    rw [gcd_eq_natGcd h w,
      ← Nat.mul_div_assoc w (Nat.gcd_dvd_right w h),
      ← Nat.mul_div_assoc h (Nat.gcd_dvd_left w h),
      Nat.mul_comm h w]
  · show Nat.gcd (w / gcd w h) (h / gcd w h) = 1
    rw [gcd_eq_natGcd h w]
    exact Nat.coprime_div_gcd_div_gcd (Nat.gcd_pos_of_pos_left h hw)

/-- Witness for C5 at the concrete dimensions 4 × 6 (gcd 2, simplified
ratio 2:3). -/
theorem resolve_auto_ratio_simplification_witness :
    (0 < 4 ∧ 0 < 6) ∧
      ∃ r, resolveAutoRatio 4 6 = Except.ok r ∧
        r.autoAspectRatio = toString 4 ++ ":" ++ toString 6 ∧
        r.simplifiedW = 4 / gcd 4 6 ∧
        r.simplifiedH = 6 / gcd 4 6 ∧
        r.simplifiedRatio = toString r.simplifiedW ++ ":" ++ toString r.simplifiedH ∧
        gcd 4 6 = Nat.gcd 4 6 ∧
        4 * r.simplifiedH = 6 * r.simplifiedW ∧
        Nat.gcd r.simplifiedW r.simplifiedH = 1 :=
  ⟨⟨by decide, by decide⟩,
    resolve_auto_ratio_simplification 4 6 (by decide) (by decide)⟩

/-- C6 counterexample: the claim "resolveAutoRatio fails, signalling an
InvalidDimensions error, exactly when its width or height argument is 0"
is false: the `onload` computation performs no dimension check, so at
width 0, height 4 no error is signalled. -/
theorem resolve_auto_ratio_error_counterexample :
    ¬ (∀ w h : ℕ,
        (∃ e, resolveAutoRatio w h = Except.error e) ↔ (w = 0 ∨ h = 0)) := by
  intro hcl
  obtain ⟨e, he⟩ := (hcl 0 4).mpr (Or.inl rfl)
  simp [resolveAutoRatio] at he

/-- C6 (amended): the auto-ratio computation performs no dimension
validation and never signals an error — for every width and height,
including 0, it succeeds with the computed ratio strings; in particular
it succeeds for all positive dimensions. -/
theorem resolve_auto_ratio_never_fails :
    ∀ w h : ℕ, resolveAutoRatio w h = Except.ok (autoRatioResult w h) ∧
      ∀ e, resolveAutoRatio w h ≠ Except.error e := by
  intro w h
  exact ⟨rfl, fun e he => by simp [resolveAutoRatio] at he⟩

/-- C8: the output raster is encoded in the source MIME type when that
type is `image/jpeg` or `image/png`, and as `image/png` for every other
source MIME type. -/
theorem output_mime_type_selection :
    (∀ t : String,
      outputMimeType t =
        if t = "image/jpeg" ∨ t = "image/png" then t else "image/png") ∧
    outputMimeType "image/jpeg" = "image/jpeg" ∧
    outputMimeType "image/png" = "image/png" ∧
    outputMimeType "image/webp" = "image/png" := by
  refine ⟨fun t => ?_, by decide, by decide, by decide⟩
  by_cases h1 : t = "image/jpeg"
  · simp [outputMimeType, h1]
  · by_cases h2 : t = "image/png"
    · simp [outputMimeType, h2]
    · simp [outputMimeType, h1, h2]

/-- C9: for a source file whose MIME type is neither `image/jpeg` nor
`image/png`, the processed image is encoded as PNG while `handleAnalyze`
declares the original file type to the analysis service, so the declared
MIME type and the actual encoding disagree. -/
theorem analyze_payload_mime_mismatch (t : String)
    (h1 : t ≠ "image/jpeg") (h2 : t ≠ "image/png") :
    (analyzePayload t).encodedAs = "image/png" ∧
    (analyzePayload t).mimeType = t ∧
    (analyzePayload t).mimeType ≠ (analyzePayload t).encodedAs := by
  have henc : (analyzePayload t).encodedAs = "image/png" := by
    simp [analyzePayload, outputMimeType, h1, h2]
  refine ⟨henc, rfl, ?_⟩
  rw [henc]
  simpa [analyzePayload] using h2

/-- Witness for C9 at the concrete MIME type `image/webp`. -/
theorem analyze_payload_mime_mismatch_witness :
    ("image/webp" ≠ "image/jpeg" ∧ "image/webp" ≠ "image/png") ∧
      ((analyzePayload "image/webp").encodedAs = "image/png" ∧
       (analyzePayload "image/webp").mimeType = "image/webp" ∧
       (analyzePayload "image/webp").mimeType ≠
         (analyzePayload "image/webp").encodedAs) :=
  ⟨⟨by decide, by decide⟩,
    analyze_payload_mime_mismatch "image/webp" (by decide) (by decide)⟩

theorem handleAddRatio_reject_format (st : RatioState)
    (h1 : ratioRegexAccepts (trim st.newRatio) = false) :
    handleAddRatio st =
      { st with ratioInputError := some "Invalid format. Use W:H (e.g., 5:4)." } := by
  simp [handleAddRatio, h1]

theorem handleAddRatio_reject_duplicate (st : RatioState)
    (h1 : ratioRegexAccepts (trim st.newRatio) = true)
    (h2 : trim st.newRatio ∈ analyzerAspectRatios ++ st.customRatios ++ ["Auto"]) :
    handleAddRatio st =
      { st with ratioInputError := some "This aspect ratio already exists." } := by
  have hd := (mem_allRatios (trim st.newRatio) st.customRatios).mp h2
  simp [handleAddRatio, h1]
  intro ha hb
  rcases hd with hx | hx | hx
  · exact absurd hx ha
  · exact absurd hx hb
  · exact hx

theorem handleAddRatio_accept (st : RatioState)
    (h1 : ratioRegexAccepts (trim st.newRatio) = true)
    (h2 : trim st.newRatio ∉ analyzerAspectRatios ++ st.customRatios ++ ["Auto"]) :
    handleAddRatio st =
      { st with customRatios := saveCustomRatios (st.customRatios ++ [trim st.newRatio])
                newRatio := ""
                ratioInputError := none } := by
  have ha : trim st.newRatio ∉ analyzerAspectRatios :=
    fun hx => h2 ((mem_allRatios _ _).mpr (Or.inl hx))
  have hb : trim st.newRatio ∉ st.customRatios :=
    fun hx => h2 ((mem_allRatios _ _).mpr (Or.inr (Or.inl hx)))
  have hc : trim st.newRatio ≠ "Auto" :=
    fun hx => h2 ((mem_allRatios _ _).mpr (Or.inr (Or.inr hx)))
  simp [handleAddRatio, h1, ha, hb, hc]

/-- C7: the add operation accepts the trimmed input exactly when it
matches the regex `^[1-9]\d*:[1-9]\d*$` and is not already present among
the built-in analyzer ratios, the existing custom ratios, or the literal
token `Auto`; on rejection the stored custom-ratio list is unchanged.
The concrete conjuncts check the scenario: fresh `5:4` accepted, `0:4`
rejected as invalid format, resubmitted `5:4` rejected as duplicate. -/
theorem add_ratio_validation (st : RatioState) :
    ((handleAddRatio st).ratioInputError = none ↔
      (ratioRegexAccepts (trim st.newRatio) = true ∧
        trim st.newRatio ∉ analyzerAspectRatios ∧
        trim st.newRatio ∉ st.customRatios ∧ trim st.newRatio ≠ "Auto")) ∧
    ((handleAddRatio st).customRatios =
      if ratioRegexAccepts (trim st.newRatio) = true ∧
          trim st.newRatio ∉ analyzerAspectRatios ∧
          trim st.newRatio ∉ st.customRatios ∧ trim st.newRatio ≠ "Auto"
        then saveCustomRatios (st.customRatios ++ [trim st.newRatio])
        else st.customRatios) ∧
    handleAddRatio ⟨[], "5:4", none, "Auto"⟩ = ⟨["5:4"], "", none, "Auto"⟩ ∧
    handleAddRatio ⟨[], "0:4", none, "Auto"⟩ =
      ⟨[], "0:4", some "Invalid format. Use W:H (e.g., 5:4).", "Auto"⟩ ∧
    handleAddRatio ⟨["5:4"], "5:4", none, "Auto"⟩ =
      ⟨["5:4"], "5:4", some "This aspect ratio already exists.", "Auto"⟩ := by
  have hmem := mem_allRatios (trim st.newRatio) st.customRatios
  by_cases h1 : ratioRegexAccepts (trim st.newRatio) = true
  · by_cases h2 : trim st.newRatio ∈ analyzerAspectRatios ++ st.customRatios ++ ["Auto"]
    · rw [handleAddRatio_reject_duplicate st h1 h2]
      have hd := hmem.mp h2
      have hnc : ¬ (ratioRegexAccepts (trim st.newRatio) = true ∧
          trim st.newRatio ∉ analyzerAspectRatios ∧
          trim st.newRatio ∉ st.customRatios ∧ trim st.newRatio ≠ "Auto") := by
        rintro ⟨_, ha, hb, hc⟩
        rcases hd with hx | hx | hx
        · exact ha hx
        · exact hb hx
        · exact hc hx
      refine ⟨?_, ?_, by decide, by decide, by decide⟩
      · exact iff_of_false (by simp) hnc
      · rw [if_neg hnc]
    · rw [handleAddRatio_accept st h1 h2]
      have hd : trim st.newRatio ∉ analyzerAspectRatios ∧
          trim st.newRatio ∉ st.customRatios ∧ trim st.newRatio ≠ "Auto" := by
        constructor
        · intro hx; exact h2 (hmem.mpr (Or.inl hx))
        constructor
        · intro hx; exact h2 (hmem.mpr (Or.inr (Or.inl hx)))
        · intro hx; exact h2 (hmem.mpr (Or.inr (Or.inr hx)))
      refine ⟨iff_of_true rfl ⟨h1, hd⟩, ?_, by decide, by decide, by decide⟩
      rw [if_pos (show _ ∧ _ from ⟨h1, hd⟩)]
  · have h1f : ratioRegexAccepts (trim st.newRatio) = false := by
      cases hb : ratioRegexAccepts (trim st.newRatio)
      · rfl
      · exact absurd hb h1
    rw [handleAddRatio_reject_format st h1f]
    refine ⟨?_, ?_, by decide, by decide, by decide⟩
    · simp [h1]
    · rw [if_neg (fun hc => h1 hc.1)]

/-- C10: starting from any custom-ratio list that has no duplicates,
does not contain `Auto`, and contains no built-in analyzer ratio, both
`handleAddRatio` and `handleRemoveRatio` (each storing through the
deduplicating `saveCustomRatios`) preserve that invariant. -/
theorem ratio_invariant_preserved (st : RatioState)
    (hinv : RatioInvariant st.customRatios) :
    RatioInvariant (handleAddRatio st).customRatios ∧
      ∀ r, RatioInvariant (handleRemoveRatio r st).customRatios := by
  obtain ⟨hnd, hauto, hbuiltin⟩ := hinv
  constructor
  · by_cases h1 : ratioRegexAccepts (trim st.newRatio) = true
    · by_cases h2 : trim st.newRatio ∈ analyzerAspectRatios ++ st.customRatios ++ ["Auto"]
      · rw [handleAddRatio_reject_duplicate st h1 h2]
        exact ⟨hnd, hauto, hbuiltin⟩
      · rw [handleAddRatio_accept st h1 h2]
        have hmem := mem_allRatios (trim st.newRatio) st.customRatios
        refine ⟨nodup_saveCustomRatios _, ?_, ?_⟩
        · intro hx
          rcases List.mem_append.mp ((mem_saveCustomRatios _ _).mp hx) with hx | hx
          · exact hauto hx
          · exact h2 (hmem.mpr (Or.inr (Or.inr (List.mem_singleton.mp hx).symm)))
        · intro r hr hx
          rcases List.mem_append.mp ((mem_saveCustomRatios _ _).mp hx) with hx | hx
          · exact hbuiltin r hr hx
          · have heq : r = trim st.newRatio := List.mem_singleton.mp hx
            exact h2 (hmem.mpr (Or.inl (heq ▸ hr)))
    · have h1f : ratioRegexAccepts (trim st.newRatio) = false := by
        cases hb : ratioRegexAccepts (trim st.newRatio)
        · rfl
        · exact absurd hb h1
      rw [handleAddRatio_reject_format st h1f]
      exact ⟨hnd, hauto, hbuiltin⟩
  · intro r
    have hsub : ∀ x, x ∈ (handleRemoveRatio r st).customRatios → x ∈ st.customRatios := by
      intro x hx
      have : x ∈ st.customRatios.filter (fun s => s ≠ r) := by
        simpa [handleRemoveRatio, mem_saveCustomRatios] using hx
      exact List.mem_of_mem_filter this
    refine ⟨?_, fun hx => hauto (hsub _ hx), fun s hs hx => hbuiltin s hs (hsub _ hx)⟩
    show ((handleRemoveRatio r st).customRatios).Nodup
    simpa [handleRemoveRatio] using nodup_saveCustomRatios (st.customRatios.filter (fun s => s ≠ r))

/-- Witness for C10: the invariant holds of the empty starting state and
is preserved through the handlers. -/
theorem ratio_invariant_preserved_witness :
    RatioInvariant ([] : List String) ∧
      (RatioInvariant (handleAddRatio ⟨[], "5:4", none, "Auto"⟩).customRatios ∧
        ∀ r, RatioInvariant (handleRemoveRatio r ⟨[], "5:4", none, "Auto"⟩).customRatios) :=
  ⟨⟨List.nodup_nil, by simp, by simp⟩,
    ratio_invariant_preserved ⟨[], "5:4", none, "Auto"⟩
      ⟨List.nodup_nil, by simp, by simp⟩⟩

/-- C1: under policy `crop`, for an intermediate buffer of positive
size `iw × ih` and positive target ratio `t`, the selected source
region is the horizontally-centered slice `(ih·t) × ih` when
`iw/ih > t`, the vertically-centered slice `iw × (iw/t)` when
`iw/ih < t`, and the whole buffer when `iw/ih = t`; the selected region
is drawn onto the full output rectangle. -/
theorem crop_region_selection (iw ih t : ℚ)
    (hiw : 0 < iw) (hih : 0 < ih) (ht : 0 < t) :
    (iw / ih > t →
      cropSourceRect iw ih t =
        { x := (iw - ih * t) / 2, y := 0, w := ih * t, h := ih }) ∧
    (iw / ih < t →
      cropSourceRect iw ih t =
        { x := 0, y := (ih - iw / t) / 2, w := iw, h := iw / t }) ∧
    (iw / ih = t →
      cropSourceRect iw ih t = { x := 0, y := 0, w := iw, h := ih }) ∧
    (composeDraw iw ih t ResizeMode.crop).1 = cropSourceRect iw ih t ∧
    (composeDraw iw ih t ResizeMode.crop).2 =
      { x := 0, y := 0, w := outputWidth, h := outputHeightRaw t } := by
  refine ⟨?_, ?_, ?_, rfl, rfl⟩
  · intro hgt
    rw [cropSourceRect, if_pos hgt]
  · intro hlt
    rw [cropSourceRect, if_neg (lt_asymm hlt), if_pos hlt]
  · intro heq
    simp [cropSourceRect, heq]

/-- Witness for C1 at the concrete buffer 4 × 2 with target ratio 1
(buffer wider than target: centered vertical slice of width 2). -/
theorem crop_region_selection_witness :
    ((0:ℚ) < 4 ∧ (0:ℚ) < 2 ∧ (0:ℚ) < 1) ∧
      (((4:ℚ) / 2 > 1 →
        cropSourceRect 4 2 1 =
          { x := (4 - 2 * 1) / 2, y := 0, w := 2 * 1, h := 2 }) ∧
      ((4:ℚ) / 2 < 1 →
        cropSourceRect 4 2 1 =
          { x := 0, y := (2 - 4 / 1) / 2, w := 4, h := 4 / 1 }) ∧
      ((4:ℚ) / 2 = 1 →
        cropSourceRect 4 2 1 = { x := 0, y := 0, w := 4, h := 2 }) ∧
      (composeDraw 4 2 1 ResizeMode.crop).1 = cropSourceRect 4 2 1 ∧
      (composeDraw 4 2 1 ResizeMode.crop).2 =
        { x := 0, y := 0, w := outputWidth, h := outputHeightRaw 1 }) :=
  ⟨⟨by norm_num, by norm_num, by norm_num⟩,
    crop_region_selection 4 2 1 (by norm_num) (by norm_num) (by norm_num)⟩

/-- C2: for a resolved target ratio `W/H` with `W, H` positive, the
output width is the constant 1024, the exact output height is
`1024 / (W/H)` and is truncated to an integer only when the output
canvas is allocated; under policy `stretch` the whole intermediate
buffer (whatever its size) is drawn onto the full output rectangle; and
the allocated pixel height differs from the exact height `1024 / (W/H)`
by less than one pixel row. -/
theorem output_dimensions (W H : ℕ) (hW : 0 < W) (hH : 0 < H) :
    outputWidth = 1024 ∧
    outputHeightRaw ((W : ℚ) / (H : ℚ)) = 1024 / ((W : ℚ) / (H : ℚ)) ∧
    bufferHeight ((W : ℚ) / (H : ℚ)) =
      (⌊1024 / ((W : ℚ) / (H : ℚ))⌋).toNat ∧
    (∀ iw ih : ℚ,
      (composeDraw iw ih ((W : ℚ) / (H : ℚ)) ResizeMode.stretch).1 =
        { x := 0, y := 0, w := iw, h := ih } ∧
      (composeDraw iw ih ((W : ℚ) / (H : ℚ)) ResizeMode.stretch).2 =
        { x := 0, y := 0, w := 1024,
          h := outputHeightRaw ((W : ℚ) / (H : ℚ)) }) ∧
    ((bufferHeight ((W : ℚ) / (H : ℚ)) : ℚ) ≤ 1024 / ((W : ℚ) / (H : ℚ)) ∧
      1024 / ((W : ℚ) / (H : ℚ)) - 1 <
        (bufferHeight ((W : ℚ) / (H : ℚ)) : ℚ)) := by
  have ht : (0 : ℚ) < (W : ℚ) / (H : ℚ) :=
    div_pos (by exact_mod_cast hW) (by exact_mod_cast hH)
  have hx0 : (0 : ℚ) ≤ 1024 / ((W : ℚ) / (H : ℚ)) :=
    le_of_lt (div_pos (by norm_num) ht)
  have hfl : (0 : ℤ) ≤ ⌊1024 / ((W : ℚ) / (H : ℚ))⌋ := Int.floor_nonneg.mpr hx0
  have hraw : outputHeightRaw ((W : ℚ) / (H : ℚ)) = 1024 / ((W : ℚ) / (H : ℚ)) := rfl
  have hcast : ((bufferHeight ((W : ℚ) / (H : ℚ)) : ℚ)) =
      ((⌊1024 / ((W : ℚ) / (H : ℚ))⌋ : ℤ) : ℚ) := by
    rw [bufferHeight, hraw]
    exact_mod_cast congrArg (fun z : ℤ => (z : ℚ)) (Int.toNat_of_nonneg hfl)
  refine ⟨rfl, rfl, by rw [bufferHeight, hraw], fun iw ih => ⟨rfl, rfl⟩, ?_, ?_⟩
  · rw [hcast]
    exact Int.floor_le _
  · rw [hcast]
    exact Int.sub_one_lt_floor _

/-- Witness for C2 at the concrete target ratio 16:9 (output canvas
1024 × 576). -/
theorem output_dimensions_witness :
    (0 < 16 ∧ 0 < 9) ∧
      (outputWidth = 1024 ∧
      outputHeightRaw ((16 : ℚ) / (9 : ℚ)) = 1024 / ((16 : ℚ) / (9 : ℚ)) ∧
      bufferHeight ((16 : ℚ) / (9 : ℚ)) =
        (⌊1024 / ((16 : ℚ) / (9 : ℚ))⌋).toNat ∧
      (∀ iw ih : ℚ,
        (composeDraw iw ih ((16 : ℚ) / (9 : ℚ)) ResizeMode.stretch).1 =
          { x := 0, y := 0, w := iw, h := ih } ∧
        (composeDraw iw ih ((16 : ℚ) / (9 : ℚ)) ResizeMode.stretch).2 =
          { x := 0, y := 0, w := 1024,
            h := outputHeightRaw ((16 : ℚ) / (9 : ℚ)) }) ∧
      ((bufferHeight ((16 : ℚ) / (9 : ℚ)) : ℚ) ≤ 1024 / ((16 : ℚ) / (9 : ℚ)) ∧
        1024 / ((16 : ℚ) / (9 : ℚ)) - 1 <
          (bufferHeight ((16 : ℚ) / (9 : ℚ)) : ℚ))) :=
  ⟨⟨by decide, by decide⟩, by
    have h16 : ((16 : ℕ) : ℚ) = (16 : ℚ) := by norm_num
    have h9 : ((9 : ℕ) : ℚ) = (9 : ℚ) := by norm_num
    have := output_dimensions 16 9 (by decide) (by decide)
    rwa [h16, h9] at this⟩

/-- C3: the transform sequence of the compositor applies the horizontal
mirror to the source pixels before the rotation is composed (the
combined map is translate ∘ rotate ∘ mirror), and at rotation 90° the
result differs from applying rotation first and then the mirror: mirror
and rotation do not commute. -/
theorem mirror_composed_before_rotation :
    (∀ (θ bw bh : ℝ) (p : ℝ × ℝ),
      renderPoint θ bw bh true p =
        translatePt (bw / 2) (bh / 2) (rotatePt θ (scalePt (-1) 1 p)) ∧
      renderPoint θ bw bh false p =
        translatePt (bw / 2) (bh / 2) (rotatePt θ p)) ∧
    (∀ bw bh : ℝ, ∃ p : ℝ × ℝ,
      renderPoint (toRad 90) bw bh true p ≠
        translatePt (bw / 2) (bh / 2) (scalePt (-1) 1 (rotatePt (toRad 90) p))) := by
  constructor
  · intro θ bw bh p
    exact ⟨rfl, rfl⟩
  · intro bw bh
    refine ⟨(1, 0), fun heq => ?_⟩
    have h90 : toRad 90 = Real.pi / 2 := by unfold toRad; ring
    have h2 := congrArg Prod.snd heq
    simp only [renderPoint, ctm, composeTransformOps, applyOp, List.foldl,
      Function.comp, id_eq, if_pos, List.append_assoc, List.cons_append,
      List.nil_append, translatePt, rotatePt, scalePt, h90,
      Real.cos_pi_div_two, Real.sin_pi_div_two] at h2
    norm_num at h2

/-- C4: for positive dimensions, the rotated bounding box is
`(w·|cos θ| + h·|sin θ|, w·|sin θ| + h·|cos θ|)` with `θ` the angle in
radians for every real angle in degrees; it equals `(w, h)` at 0°,
`(h, w)` at 90°, and is periodic with period 360° with no range clamp. -/
theorem rotated_bounding_box_props (w h : ℝ) (hw : 0 < w) (hh : 0 < h) :
    (∀ θ : ℝ, rotatedBoundingBox w h θ =
      (w * |Real.cos (toRad θ)| + h * |Real.sin (toRad θ)|,
       w * |Real.sin (toRad θ)| + h * |Real.cos (toRad θ)|)) ∧
    rotatedBoundingBox w h 0 = (w, h) ∧
    rotatedBoundingBox w h 90 = (h, w) ∧
    ∀ θ : ℝ, rotatedBoundingBox w h (θ + 360) = rotatedBoundingBox w h θ := by
  have h0 : toRad 0 = 0 := by unfold toRad; ring
  have h90 : toRad 90 = Real.pi / 2 := by unfold toRad; ring
  refine ⟨fun θ => rfl, ?_, ?_, fun θ => ?_⟩
  · simp [rotatedBoundingBox, h0]
  · simp [rotatedBoundingBox, h90, Real.cos_pi_div_two, Real.sin_pi_div_two]
  · have hper : toRad (θ + 360) = toRad θ + 2 * Real.pi := by
      unfold toRad; ring
    simp [rotatedBoundingBox, hper, Real.cos_add_two_pi, Real.sin_add_two_pi]

/-- Witness for C4 at the concrete dimensions 1 × 2. -/
theorem rotated_bounding_box_props_witness :
    ((0:ℝ) < 1 ∧ (0:ℝ) < 2) ∧
      ((∀ θ : ℝ, rotatedBoundingBox 1 2 θ =
        (1 * |Real.cos (toRad θ)| + 2 * |Real.sin (toRad θ)|,
         1 * |Real.sin (toRad θ)| + 2 * |Real.cos (toRad θ)|)) ∧
      rotatedBoundingBox 1 2 0 = (1, 2) ∧
      rotatedBoundingBox 1 2 90 = (2, 1) ∧
      ∀ θ : ℝ, rotatedBoundingBox 1 2 (θ + 360) = rotatedBoundingBox 1 2 θ) :=
  ⟨⟨by norm_num, by norm_num⟩,
    rotated_bounding_box_props 1 2 (by norm_num) (by norm_num)⟩

end ImageAnalyzer
